import Mathlib

/-
Verification of the instagram-story-archiver core pipeline
(src/archive_manager.py, src/story_archiver.py, src/media_manager.py)
as a shallow embedding in Lean.

Machine integers are modelled as Nat/Int (no overflow is relevant: Python
integers are unbounded).  All external effects (file system probes, HTTP
downloads, the Twitter port, the clock) are modelled as a pure, fixed
environment `Env`; mutable process state (the in-memory archive store,
the on-disk ledger file, the posts created so far) is threaded through a
`World` record.
-/

namespace ISA

/-! ## Python string helpers

`_account_key` and friends use `s.strip().lstrip('@')`.  We model Python
string operations at the character-list level. -/

/-- Python `s.strip()`: remove leading and trailing whitespace. -/
def stripChars (cs : List Char) : List Char :=
  ((cs.dropWhile Char.isWhitespace).reverse.dropWhile Char.isWhitespace).reverse

/-- Characters of `s.strip().lstrip('@')`. -/
def accountKeyChars (cs : List Char) : List Char :=
  (stripChars cs).dropWhile (fun c => c = '@')

/-- `ArchiveManager._account_key` / the `username.strip().lstrip('@')`
normalisation used throughout the code: strip surrounding whitespace, then
remove every leading `'@'`.  (The default-account fallback for a missing
username argument is not modelled; all call sites in the pipeline pass a
username.) -/
def accountKey (s : String) : String :=
  (accountKeyChars s.toList).asString

/-- Python `sub in s` (substring containment). -/
def strContains (s sub : String) : Bool :=
  decide (sub.toList <:+: s.toList)

/-- ASCII lowercase of one character (Python `str.lower()` restricted to
ASCII, which covers every comparison made by the code: `'video' in
url.lower()` and the `.jpg`/`.mp4` extension check). -/
def lowerChar (c : Char) : Char :=
  if c = 'A' then 'a' else if c = 'B' then 'b' else if c = 'C' then 'c'
  else if c = 'D' then 'd' else if c = 'E' then 'e' else if c = 'F' then 'f'
  else if c = 'G' then 'g' else if c = 'H' then 'h' else if c = 'I' then 'i'
  else if c = 'J' then 'j' else if c = 'K' then 'k' else if c = 'L' then 'l'
  else if c = 'M' then 'm' else if c = 'N' then 'n' else if c = 'O' then 'o'
  else if c = 'P' then 'p' else if c = 'Q' then 'q' else if c = 'R' then 'r'
  else if c = 'S' then 's' else if c = 'T' then 't' else if c = 'U' then 'u'
  else if c = 'V' then 'v' else if c = 'W' then 'w' else if c = 'X' then 'x'
  else if c = 'Y' then 'y' else if c = 'Z' then 'z' else c

/-- Python `s.lower()` (ASCII model). -/
def lowerStr (s : String) : String :=
  (s.toList.map lowerChar).asString

/-- Python `s.replace(pat, rep)` (replace all occurrences), with fuel. -/
def replaceAllAux (pat rep : List Char) : Nat → List Char → List Char
  | 0, cs => cs
  | _ + 1, [] => []
  | n + 1, c :: rest =>
    if pat.isPrefixOf (c :: rest) then
      rep ++ replaceAllAux pat rep n ((c :: rest).drop pat.length)
    else
      c :: replaceAllAux pat rep n rest

def replaceAll (s pat rep : String) : String :=
  (replaceAllAux pat.toList rep.toList s.length s.toList).asString

/-- Python `s.isdigit()` (restricted to ASCII digits). -/
def pyIsDigit (s : String) : Bool :=
  decide (s ≠ "") && s.toList.all Char.isDigit

/-- Python `int(s)` on a digit string. -/
def natOfDigits (s : String) : Nat :=
  s.toList.foldl (fun n c => n * 10 + (c.toNat - 48)) 0

/-- Drop a known suffix (used for `stem[:-len('_compressed')]`). -/
def strDropSuffix (s suf : String) : String :=
  (s.toList.take (s.toList.length - suf.toList.length)).asString

/-! ## Stable sorting and batching helpers

Python `list.sort(key=...)` is a stable ascending sort; we model it by
stable insertion sort. -/

def insertLe {α : Type} (le : α → α → Bool) (x : α) : List α → List α
  | [] => [x]
  | y :: ys => if le x y then x :: y :: ys else y :: insertLe le x ys

/-- Stable ascending sort (equal elements keep their original order). -/
def sortLe {α : Type} (le : α → α → Bool) (l : List α) : List α :=
  l.foldr (insertLe le) []

/-- `[lst[i:i+4] for i in range(0, len(lst), 4)]`. -/
def chunks4 {α : Type} : List α → List (List α)
  | [] => []
  | [a] => [[a]]
  | [a, b] => [[a, b]]
  | [a, b, c] => [[a, b, c]]
  | a :: b :: c :: d :: rest => [a, b, c, d] :: chunks4 rest

/-! ## Data model

A Story Record as produced by `ArchiveManager.add_story` and mutated by
`update_story_tweets` / `set_local_paths`.  `add_story` records exactly
`story_id`, `instagram_username`, `archived_at`, `media_count`,
`tweet_ids`, `media_urls` and `taken_at` (any other keys of the supplied
`story_data` dict are dropped); the remaining fields model keys that can
only be present on legacy entries or be added later by `set_local_paths`
(absent keys are modelled by `[]` / `none` / the `'image'` default used
at every read site). -/

structure StoryRecord where
  story_id : String
  instagram_username : String
  archived_at : Int
  media_count : Nat
  tweet_ids : List String
  media_urls : List String
  taken_at : Int
  local_media_paths : List String
  media_types : List String
  local_media_path : Option String
  media_type : String
  deriving Repr, DecidableEq

/-- One Account Ledger (`_empty_account` layout). -/
structure Account where
  archived_stories : List StoryRecord
  last_check : Option Int
  anchor_tweet_id : Option String
  last_tweet_id : Option String
  deriving Repr, DecidableEq

def emptyAccount : Account :=
  { archived_stories := [], last_check := none,
    anchor_tweet_id := none, last_tweet_id := none }

/-- The in-memory archive store (`self.data`): an insertion-ordered
mapping from account key to Account Ledger, modelled as an association
list (Python dicts preserve insertion order). -/
structure Store where
  accounts : List (String × Account)
  deriving Repr, DecidableEq

/-- Content of the on-disk ledger file.  `_save_archive` opens the target
path with mode `'w'` (truncating it) and then serialises the whole store,
so a save that fails mid-write leaves a truncated or partially-written
file behind. -/
inductive DiskFile where
  | intact (st : Store)
  | truncated
  deriving Repr, DecidableEq

/-- Outcome of one `_save_archive` attempt: success, a failure before the
target file is opened (previous content intact), or a failure after the
truncating open / during `json.dump` (previous content destroyed). -/
inductive SaveOutcome where
  | ok
  | failKeep
  | failCorrupt
  deriving Repr, DecidableEq

/-- One story payload as delivered by the fetch port
(`instagram_api.get_user_stories` followed by `extract_media_urls`, both
external collaborators per the spec): a stable id (`pk`/`id`, `""` models
a missing id), a `taken_at` timestamp and the extracted media descriptors
(url, type). -/
structure MediaDesc where
  url : String
  mtype : String
  deriving Repr, DecidableEq

structure FetchedStory where
  id : String
  taken_at : Int
  media : List MediaDesc
  deriving Repr, DecidableEq

/-- A post created on the destination platform. -/
structure Post where
  id : String
  replyTo : Option String
  text : String
  deriving Repr, DecidableEq

/-- The fixed external environment: clock, file system, network and the
Twitter port.  All are deterministic functions, which models one
invocation against a fixed outside world. -/
structure Env where
  now : Int
  saveOutcome : Nat → SaveOutcome
  pathExists : String → Bool
  downloadOk : String → Bool
  imageSmallEnough : String → Bool
  mtime : String → Int
  uploadResult : String → Option String
  tweetResult : Nat → Option String
  fetchStories : String → Option (List FetchedStory)
  cacheFiles : Option (List String)
  cacheDir : String
  captionText : String → Int → String
  anchorText : String → String
  usernames : List String

/-- Mutable process / disk state threaded through the pipeline. -/
structure World where
  store : Store
  disk : DiskFile
  saveCount : Nat
  counter : Nat
  posts : List Post
  orphans : List (String × String × List String)
  cleaned : List String
  deriving Repr

/-! ## ArchiveManager -/

/-- Raw association-list lookup (first match). -/
def lookupAccount (st : Store) (k : String) : Option Account :=
  (st.accounts.find? (fun p => decide (p.1 = k))).map (fun p => p.2)

/-- Replace the value stored under key `k` (in place, keeping position),
mirroring Python dict assignment for a present key. -/
def setAccount (st : Store) (k : String) (a : Account) : Store :=
  ⟨st.accounts.map (fun p => if p.1 = k then (k, a) else p)⟩

/-- `ArchiveManager._get_account`: normalise the handle, insert a fresh
empty account if the key is absent, and return the account.  (For a
present account the Python code replaces the stored dict by a merge of
`_empty_account()` with a deep copy of it; on the typed record that merge
is the identity, so the store is returned unchanged.) -/
def getAccountS (st : Store) (u : String) : Account × Store :=
  let k := accountKey u
  match lookupAccount st k with
  | some a => (a, st)
  | none => (emptyAccount, ⟨st.accounts ++ [(k, emptyAccount)]⟩)

/-- `ArchiveManager.get_archived_story_ids` (returned set modelled as the
list of ids; only membership is ever used). -/
def getArchivedStoryIds (st : Store) (u : String) : List String × Store :=
  let (a, st') := getAccountS st u
  (a.archived_stories.map (fun e => e.story_id), st')

/-- The per-account statistics dict built by `get_statistics(username)`. -/
structure Stats where
  instagram_username : String
  total_stories : Nat
  total_media : Nat
  last_check : Option Int
  stories : List StoryRecord
  anchor_tweet_id : Option String
  last_tweet_id : Option String
  deriving Repr, DecidableEq

/-- `ArchiveManager.get_statistics` with an explicit username. -/
def getStatistics (st : Store) (u : String) : Stats × Store :=
  let (a, st') := getAccountS st u
  ({ instagram_username := accountKey u,
     total_stories := a.archived_stories.length,
     total_media := (a.archived_stories.map (fun s => s.media_count)).sum,
     last_check := a.last_check,
     stories := a.archived_stories,
     anchor_tweet_id := a.anchor_tweet_id,
     last_tweet_id := a.last_tweet_id }, st')

/-- The `stats.get('stories', [])` read used by the pipeline. -/
def getStatisticsStories (st : Store) (u : String) : List StoryRecord × Store :=
  let (s, st') := getStatistics st u
  (s.stories, st')

/-- `ArchiveManager.get_anchor_tweet_id`: `str(value) if value else None`
(an empty string is falsy). -/
def getAnchorTweetIdS (st : Store) (u : String) : Option String × Store :=
  let (a, st') := getAccountS st u
  (match a.anchor_tweet_id with
   | some v => if v = "" then none else some v
   | none => none, st')

/-- `ArchiveManager.get_last_tweet_id`. -/
def getLastTweetIdS (st : Store) (u : String) : Option String × Store :=
  let (a, st') := getAccountS st u
  (match a.last_tweet_id with
   | some v => if v = "" then none else some v
   | none => none, st')

/-- `ArchiveManager._save_archive`: serialise the whole store into the
ledger file.  The target is opened with `open(db_path, 'w')` — an
in-place truncating rewrite, not a write-to-temp-then-rename — so the
three outcomes are: success (disk now holds the current store), failure
before the open (previous disk content intact), failure during the write
(disk left truncated/partial).  Returns `true` only on success. -/
def saveArchive (env : Env) (w : World) : Bool × World :=
  match env.saveOutcome w.saveCount with
  | .ok => (true, { w with saveCount := w.saveCount + 1, disk := .intact w.store })
  | .failKeep => (false, { w with saveCount := w.saveCount + 1 })
  | .failCorrupt => (false, { w with saveCount := w.saveCount + 1, disk := .truncated })

/-- The dict literal built by `add_story` (note: `local_media_paths`,
`media_types` and the legacy single-media fields supplied by the caller
are NOT copied into the ledger entry). -/
structure StoryData where
  media_count : Nat
  tweet_ids : List String
  media_urls : List String
  taken_at : Int
  deriving Repr, DecidableEq

def mkEntry (env : Env) (u sid : String) (d : StoryData) : StoryRecord :=
  { story_id := sid, instagram_username := u, archived_at := env.now,
    media_count := d.media_count, tweet_ids := d.tweet_ids,
    media_urls := d.media_urls, taken_at := d.taken_at,
    local_media_paths := [], media_types := [],
    local_media_path := none, media_type := "image" }

/-- `ArchiveManager.add_story`: no-op returning `false` if the story id is
already present; otherwise append the entry, update `last_check`, persist,
and return the save result. -/
def addStory (env : Env) (w : World) (u sid : String) (d : StoryData) :
    Bool × World :=
  let (a, st1) := getAccountS w.store u
  let w1 := { w with store := st1 }
  if a.archived_stories.any (fun e => decide (e.story_id = sid)) then
    (false, w1)
  else
    let a' := { a with archived_stories := a.archived_stories ++ [mkEntry env u sid d],
                       last_check := some env.now }
    saveArchive env { w1 with store := setAccount st1 (accountKey u) a' }

/-- Update the first record with the given story id. -/
def updateFirstStory (sid : String) (f : StoryRecord → StoryRecord) :
    List StoryRecord → List StoryRecord
  | [] => []
  | e :: es =>
    if e.story_id = sid then f e :: es else e :: updateFirstStory sid f es

/-- `ArchiveManager.update_story_tweets`: set `tweet_ids` on the first
matching record and persist; `false` (no save) if the story is unknown. -/
def updateStoryTweets (env : Env) (w : World) (u sid : String)
    (tids : List String) : Bool × World :=
  let (a, st1) := getAccountS w.store u
  let w1 := { w with store := st1 }
  if a.archived_stories.any (fun e => decide (e.story_id = sid)) then
    let a' := { a with archived_stories :=
                  updateFirstStory sid (fun e => { e with tweet_ids := tids }) a.archived_stories }
    saveArchive env { w1 with store := setAccount st1 (accountKey u) a' }
  else
    (false, w1)

/-- `ArchiveManager.set_anchor_tweet_id`. -/
def setAnchorTweetId (env : Env) (w : World) (u tid : String) : Bool × World :=
  let (a, st1) := getAccountS w.store u
  saveArchive env
    { w with store := setAccount st1 (accountKey u) { a with anchor_tweet_id := some tid } }

/-- `ArchiveManager.set_last_tweet_id`. -/
def setLastTweetId (env : Env) (w : World) (u tid : String) : Bool × World :=
  let (a, st1) := getAccountS w.store u
  saveArchive env
    { w with store := setAccount st1 (accountKey u) { a with last_tweet_id := some tid } }

/-- Modelled from the spec: `set_last_check(account, timestamp)` (§4.1) —
called by the pipeline (`story_archiver.py`) but absent from
`src/archive_manager.py`.  As a mutating ledger call it records the
timestamp and persists the store. -/
def setLastCheck (env : Env) (w : World) (u : String) : Bool × World :=
  let (a, st1) := getAccountS w.store u
  saveArchive env
    { w with store := setAccount st1 (accountKey u) { a with last_check := some env.now } }

/-- Modelled from the spec: `set_local_paths(account, story_id, paths|empty)`
(§4.1) — called by the pipeline as `update_story_local_paths` but absent
from `src/archive_manager.py`.  Sets `local_media_paths` on the first
matching record and persists; `false` if the story is unknown (mirroring
`set_post_ids`). -/
def updateStoryLocalPaths (env : Env) (w : World) (u sid : String)
    (paths : List String) : Bool × World :=
  let (a, st1) := getAccountS w.store u
  let w1 := { w with store := st1 }
  if a.archived_stories.any (fun e => decide (e.story_id = sid)) then
    let a' := { a with archived_stories :=
                  updateFirstStory sid (fun e => { e with local_media_paths := paths }) a.archived_stories }
    saveArchive env { w1 with store := setAccount st1 (accountKey u) a' }
  else
    (false, w1)

/-- Modelled from the spec: on a post-create failure the already-uploaded
media handles "are recorded for manual recovery" (§4.3 step 4); called by
the pipeline as `add_orphan_media_ids` but absent from
`src/archive_manager.py`.  Modelled as recording the handles. -/
def addOrphanMediaIds (env : Env) (w : World) (u sid : String)
    (mediaIds : List String) : Bool × World :=
  let _ := env
  (true, { w with orphans := w.orphans ++ [(u, sid, mediaIds)] })

/-- First archived record with the given story id under the given raw
account key (the read performed by `post_story` via `get_statistics`). -/
def lookupStory (st : Store) (k sid : String) : Option StoryRecord :=
  (lookupAccount st k).bind
    (fun a => a.archived_stories.find? (fun e => decide (e.story_id = sid)))

/-! ## MediaManager -/

/-- `MediaManager.get_cached_media_path`: for images prefer the
`_compressed.jpg` variant, then the canonical path; `none` on miss. -/
def getCachedMediaPath (env : Env) (mediaId mtype : String) : Option String :=
  let ext := if mtype = "video" then "mp4" else "jpg"
  let basePath := env.cacheDir ++ "/" ++ mediaId ++ "." ++ ext
  let compressedPath := env.cacheDir ++ "/" ++ mediaId ++ "_compressed.jpg"
  if mtype = "image" && env.pathExists compressedPath then some compressedPath
  else if env.pathExists basePath then some basePath
  else none

/-- `MediaManager.download_media`: stream the url to the deterministic
canonical path; `none` on any failure. -/
def downloadMedia (env : Env) (url mediaId mtype : String) : Option String :=
  if env.downloadOk url then
    let ext := if mtype = "video" then "mp4" else "jpg"
    some (env.cacheDir ++ "/" ++ mediaId ++ "." ++ ext)
  else none

/-- `MediaManager.compress_image`: return the input unchanged when it is
already within the size budget, otherwise re-encode to
`path.replace('.jpg', '_compressed.jpg')` (the quality loop always ends at
the compressed path; the exception fallback is not modelled). -/
def compressImage (env : Env) (path : String) : String :=
  if env.imageSmallEnough path then path
  else replaceAll path ".jpg" "_compressed.jpg"

/-! ## StoryArchiver: media preparation -/

/-- `'video' if 'video' in str(url).lower() else 'image'`. -/
def inferTypeFromUrl (url : String) : String :=
  if strContains (lowerStr url) "video" then "video" else "image"

/-- The `(stored_media_paths, stored_media_types)` read with the legacy
single-media fallback shared by `post_story` and the daily digest. -/
def storyStoredMedia (r : StoryRecord) : List String × List String :=
  if r.local_media_paths = [] then
    match r.local_media_path with
    | some p => if p = "" then ([], r.media_types) else ([p], [r.media_type])
    | none => ([], r.media_types)
  else (r.local_media_paths, r.media_types)

/-- Preparation of the media item at index `idx` of the authoritative URL
list: reuse a stored path that still exists, else probe the cache, else
download; images are compressed unless already `_compressed.jpg`.
`none` models the `continue` on an unpreparable item. -/
def prepareOne (env : Env) (username sid : String)
    (storedPaths storedTypes : List String) (idx : Nat) (url : String) :
    Option (String × String) :=
  let mtype :=
    match storedTypes[idx]? with
    | some t => if t = "" then inferTypeFromUrl url else t
    | none => inferTypeFromUrl url
  let existing :=
    match storedPaths[idx]? with
    | some p => if p ≠ "" && env.pathExists p then some p else none
    | none => none
  let path? :=
    match existing with
    | some p => some p
    | none =>
      let mediaId := username ++ "_" ++ sid ++ "_" ++ toString idx
      match getCachedMediaPath env mediaId mtype with
      | some p => some p
      | none => downloadMedia env url mediaId mtype
  match path? with
  | none => none
  | some p =>
    let p' := if mtype = "image" && !(p.endsWith "_compressed.jpg")
              then compressImage env p else p
    some (p', mtype)

/-- The `(media_paths, media_types)` pairs collected by the per-URL
preparation loop (item order preserved, failures skipped). -/
def preparedMedia (env : Env) (username sid : String)
    (storedPaths storedTypes : List String) (urls : List String) :
    List (String × String) :=
  urls.enum.filterMap
    (fun p => prepareOne env username sid storedPaths storedTypes p.1 p.2)

/-- Preparation of one story's media from its ledger record, as performed
by `post_story` when `media_urls` is non-empty. -/
def storyPrepared (env : Env) (username : String) (r : StoryRecord) :
    List (String × String) :=
  preparedMedia env username r.story_id
    (storyStoredMedia r).1 (storyStoredMedia r).2 r.media_urls

/-! ## StoryArchiver: posting -/

/-- One `twitter_api.post_tweet` call: the result is drawn from the
environment by attempt index; a created post is appended to the trace. -/
def doPostTweet (env : Env) (w : World) (text : String)
    (replyTo : Option String) : Option String × World :=
  match env.tweetResult w.counter with
  | some tid =>
    (some tid, { w with counter := w.counter + 1,
                        posts := w.posts ++ [{ id := tid, replyTo := replyTo, text := text }] })
  | none => (none, { w with counter := w.counter + 1 })

/-- `StoryArchiver._ensure_anchor_tweet`. -/
def ensureAnchorTweet (env : Env) (w : World) (u : String) :
    Option String × World :=
  let username := accountKey u
  let (anchor?, st) := getAnchorTweetIdS w.store username
  let w1 := { w with store := st }
  match anchor? with
  | some a => (some a, w1)
  | none =>
    let (tid?, w2) := doPostTweet env w1 (env.anchorText username) none
    match tid? with
    | none => (none, w2)
    | some tid =>
      let (_, w3) := setAnchorTweetId env w2 username tid
      let (_, w4) := setLastTweetId env w3 username tid
      (some tid, w4)

/-- The caption suffix `\n(i/n)` added when there is more than one batch. -/
def batchText (caption : String) (idx nBatches : Nat) : String :=
  if nBatches > 1 then
    caption ++ "\n(" ++ toString (idx + 1) ++ "/" ++ toString nBatches ++ ")"
  else caption

/-- The per-batch upload-and-post loop of `post_story`: a batch whose
uploads all fail is skipped; a failed post records the batch's uploaded
media handles as orphans and stops the remaining batches. -/
def postBatchesSingle (env : Env) (w : World) (username sid caption : String)
    (last0 : String) (batches : List (List String)) : List String × World :=
  let n := batches.length
  let step := fun (acc : List String × String × World × Bool) (p : Nat × List String) =>
    let (tids, last, w, stopped) := acc
    if stopped then acc
    else
      let mediaIds := p.2.filterMap env.uploadResult
      if mediaIds = [] then acc
      else
        let (tid?, w') := doPostTweet env w (batchText caption p.1 n) (some last)
        match tid? with
        | none =>
          let (_, w'') := addOrphanMediaIds env w' username sid mediaIds
          (tids, last, w'', true)
        | some tid => (tids ++ [tid], tid, w', false)
  let r := batches.enum.foldl step ([], last0, w, false)
  (r.1, r.2.2.1)

/-- The tail of `post_story` once the media list is resolved: ensure the
anchor, post the batches as replies to the thread tail, then record the
tweet ids, advance the tail, clean up, and clear the local paths. -/
def postStoryResolved (env : Env) (w2 : World) (username sid : String)
    (takenAt : Int) (mediaPaths : List String) : Bool × World :=
  let (anchor?, w3) := ensureAnchorTweet env w2 username
  match anchor? with
  | none => (false, w3)
  | some anchorId =>
    let caption := env.captionText username takenAt
    let (last?, st4) := getLastTweetIdS w3.store username
    let w4 := { w3 with store := st4 }
    let last0 := last?.getD anchorId
    let (tweetIds, w5) :=
      postBatchesSingle env w4 username sid caption last0 (chunks4 mediaPaths)
    if tweetIds = [] then (false, w5)
    else
      let (_, w6) := updateStoryTweets env w5 username sid tweetIds
      let (_, w7) := setLastTweetId env w6 username (tweetIds.getLastD "")
      let w8 := { w7 with cleaned := w7.cleaned ++ mediaPaths.filter env.pathExists }
      let (_, w9) := updateStoryLocalPaths env w8 username sid []
      (true, w9)

/-- `StoryArchiver.post_story`. -/
def postStory (env : Env) (w : World) (u0 sid : String) : Bool × World :=
  let username := accountKey u0
  let (stories, st1) := getStatisticsStories w.store username
  let w1 := { w with store := st1 }
  match stories.find? (fun s => decide (s.story_id = sid)) with
  | none => (false, w1)
  | some entry =>
    if entry.tweet_ids ≠ [] then (true, w1)
    else
      let stored := storyStoredMedia entry
      if entry.media_urls ≠ [] then
        let expected := entry.media_urls.length
        let prepared := storyPrepared env username entry
        if prepared = [] then (false, w1)
        else if expected > 1 && prepared.length ≠ expected then (false, w1)
        else
          let mediaPaths := prepared.map (fun p => p.1)
          let (_, w2) := updateStoryLocalPaths env w1 username sid mediaPaths
          postStoryResolved env w2 username sid entry.taken_at mediaPaths
      else
        let valid := stored.1.filter (fun p => p ≠ "" && env.pathExists p)
        if valid = [] then (false, w1)
        else postStoryResolved env w1 username sid entry.taken_at valid

/-! ## StoryArchiver: archiving -/

/-- `StoryArchiver.archive_story` with the payload supplied by the caller
(the pipeline always passes the fetched story).  Media is downloaded
best-effort, but `add_story` drops the local-path fields, so only the
metadata is recorded; the media downloads themselves are cache writes
handled by the (static) environment.  The `add_story` result is ignored
(the Python code discards it) and `true` is returned. -/
def archiveStory (env : Env) (w : World) (u0 sid : String)
    (payload : FetchedStory) : Bool × World :=
  let username := accountKey u0
  let (ids, st1) := getArchivedStoryIds w.store username
  let w1 := { w with store := st1 }
  if sid ∈ ids then (false, w1)
  else
    let mediaList := payload.media
    if mediaList = [] then (false, w1)
    else
      let d : StoryData :=
        { media_count := mediaList.length, tweet_ids := [],
          media_urls := mediaList.map (fun m => m.url),
          taken_at := payload.taken_at }
      let (_, w2) := addStory env w1 username sid d
      (true, w2)

/-- `(stem, ext)` of `os.path.splitext` / `rsplit('.', 1)` on a simple
file name: split at the last dot (no dot: empty extension). -/
def rsplitExt (s : String) : String × String :=
  let rev := s.toList.reverse
  let afterDot := rev.takeWhile (fun c => c ≠ '.')
  if afterDot.length = rev.length then (s, "")
  else ((rev.drop (afterDot.length + 1)).reverse.asString,
        ("." ++ afterDot.reverse.asString))

/-- Insert `(idx, mtype)` into the per-story index map (dict-assignment
semantics: replace a present index, append a new one). -/
def setIdx (l : List (Nat × String)) (idx : Nat) (mtype : String) :
    List (Nat × String) :=
  if l.any (fun p => decide (p.1 = idx)) then
    l.map (fun p => if p.1 = idx then (idx, mtype) else p)
  else l ++ [(idx, mtype)]

/-- `grouped.setdefault(story_id, {})[idx] = media_type`. -/
def groupedSet (g : List (String × List (Nat × String))) (sid : String)
    (idx : Nat) (mtype : String) : List (String × List (Nat × String)) :=
  if g.any (fun p => decide (p.1 = sid)) then
    g.map (fun p => if p.1 = sid then (sid, setIdx p.2 idx mtype) else p)
  else g ++ [(sid, [(idx, mtype)])]

/-- Classification of one cache file name by
`StoryArchiver._sync_cache_only_stories`: returns
`some (story_id, idx, media_type)` when the name matches the
`{username}_{story_id}_{idx}[.jpg|.mp4]` convention. -/
def parseCacheFile (username filename : String) :
    Option (String × Nat × String) :=
  if !(filename.startsWith (username ++ "_")) then none
  else
    let se := rsplitExt filename
    let ext := lowerStr se.2
    if ext ≠ ".jpg" && ext ≠ ".mp4" then none
    else
      let stem := if se.1.endsWith "_compressed"
                  then strDropSuffix se.1 "_compressed" else se.1
      let parts := stem.splitOn "_"
      if parts.length < 3 then none
      else
        let sid := parts.getD (parts.length - 2) ""
        let idxStr := parts.getLastD ""
        if !(pyIsDigit idxStr) then none
        else
          let mtype := if ext = ".mp4" then "video" else "image"
          some (sid, natOfDigits idxStr, mtype)

/-- `StoryArchiver._sync_cache_only_stories`: evict cached media of
already-posted stories, and backfill ledger entries for cached media whose
story is neither archived nor in the just-fetched API result set. -/
def syncCacheOnlyStories (env : Env) (w : World) (u0 : String)
    (ignoreIds : List String) : Nat × World :=
  let username := accountKey u0
  match env.cacheFiles with
  | none => (0, w)
  | some filenames =>
    let (ids, st1) := getArchivedStoryIds w.store username
    let (stories, st2) := getStatisticsStories st1 username
    let w1 := { w with store := st2 }
    let scan := fun (acc : List (String × List (Nat × String)) × World)
                    (filename : String) =>
      match parseCacheFile username filename with
      | none => acc
      | some (sid, idx, mtype) =>
        if stories.any (fun s => decide (s.story_id = sid) && decide (s.tweet_ids ≠ [])) then
          (acc.1, { acc.2 with cleaned := acc.2.cleaned ++ [env.cacheDir ++ "/" ++ filename] })
        else if sid ∈ ids || sid ∈ ignoreIds then acc
        else (groupedSet acc.1 sid idx mtype, acc.2)
    let (grouped, w2) := filenames.foldl scan ([], w1)
    let backfill := fun (acc : Nat × World) (g : String × List (Nat × String)) =>
      let indices := sortLe (fun a b => decide (a ≤ b)) (g.2.map (fun p => p.1))
      let located := indices.filterMap (fun idx =>
        match (g.2.find? (fun p => decide (p.1 = idx))).map (fun p => p.2) with
        | none => none
        | some mtype =>
          let mediaId := username ++ "_" ++ g.1 ++ "_" ++ toString idx
          (getCachedMediaPath env mediaId mtype).map (fun p => (p, mtype)))
      if located = [] then acc
      else
        let paths := located.map (fun p => p.1)
        let takenAt :=
          match paths with
          | [] => 0
          | p :: rest => rest.foldl (fun m q => min m (env.mtime q)) (env.mtime p)
        let d : StoryData :=
          { media_count := paths.length, tweet_ids := [],
            media_urls := [], taken_at := takenAt }
        let (ok, w') := addStory env acc.2 username g.1 d
        (if ok then acc.1 + 1 else acc.1, w')
    grouped.foldl backfill (0, w2)

/-- `StoryArchiver.archive_all_stories_for_user`: record the check time,
fetch, sort ascending by `taken_at` (stable), archive each unknown story,
then run the reconciliation sweep. -/
def archiveAllStoriesForUser (env : Env) (w : World) (u0 : String) :
    Nat × World :=
  let username := accountKey u0
  let (_, w1) := setLastCheck env w username
  match env.fetchStories username with
  | none => (0, w1)
  | some stories =>
    let items := sortLe (fun a b => decide (a.taken_at ≤ b.taken_at)) stories
    let apiIds := items.filterMap (fun s => if s.id = "" then none else some s.id)
    let (ids0, st) := getArchivedStoryIds w1.store username
    let w2 := { w1 with store := st }
    let step := fun (acc : Nat × List String × World) (s : FetchedStory) =>
      let (count, known, w) := acc
      if s.id = "" then acc
      else if s.id ∈ known then acc
      else
        let (ok, w') := archiveStory env w username s.id s
        if ok then (count + 1, known ++ [s.id], w') else (count, known, w')
    let (count, _, w3) := items.foldl step (0, ids0, w2)
    let (added, w4) := syncCacheOnlyStories env w3 username apiIds
    (count + added, w4)

/-! ## Scheduling: eligibility and the two posting policies -/

/-- Midnight (00:00:00) of the current calendar day in the fixed UTC+7
reference, as an epoch second: `now.replace(hour=0, minute=0, second=0,
microsecond=0)` on `datetime.now(timezone(timedelta(hours=7)))`.
(`Int.ediv` by the positive constant 86400 is Python floor division.) -/
def dayStart7 (now : Int) : Int :=
  ((now + 7 * 3600).ediv 86400) * 86400 - 7 * 3600

/-- The pending-and-eligible test shared by both posting policies: no
tweet ids yet, and `taken_at` strictly before today's start (UTC+7). -/
def storyEligible (now : Int) (s : StoryRecord) : Bool :=
  s.tweet_ids.isEmpty && decide (s.taken_at < dayStart7 now)

/-- The selection both policies make from an account's story list. -/
def selectEligible (now : Int) (stories : List StoryRecord) :
    List StoryRecord :=
  stories.filter (storyEligible now)

/-- `StoryArchiver.post_pending_stories` (immediate-eligible policy). -/
def postPendingStories (env : Env) (w : World) : Nat × World :=
  let step := fun (acc : Nat × World) (u0 : String) =>
    let username := accountKey u0
    let (stories, st) := getStatisticsStories acc.2.store username
    let w1 := { acc.2 with store := st }
    let toPost := selectEligible env.now stories
    if toPost = [] then (acc.1, w1)
    else
      let sorted := sortLe (fun a b => decide (a.taken_at ≤ b.taken_at)) toPost
      sorted.foldl (fun acc' s =>
        let (ok, w') := postStory env acc'.2 username s.story_id
        (if ok then acc'.1 + 1 else acc'.1, w')) (acc.1, w1)
  env.usernames.foldl step (0, w)

/-! ## Daily-digest policy -/

/-- The `%Y-%m-%d` grouping key in UTC+7, modelled as the day number
(two timestamps share the day number iff they format to the same date
string, and ascending day numbers is ascending date-string order). -/
def dayKey7 (t : Int) : Int :=
  (t + 7 * 3600).ediv 86400

/-- `stories_by_date.setdefault(date_key, []).append(story)`. -/
def groupInsert (g : List (Int × List StoryRecord)) (k : Int)
    (s : StoryRecord) : List (Int × List StoryRecord) :=
  if g.any (fun p => decide (p.1 = k)) then
    g.map (fun p => if p.1 = k then (k, p.2 ++ [s]) else p)
  else g ++ [(k, [s])]

/-- Group the eligible stories by their UTC+7 upload date, preserving
first-seen key order and per-key insertion order. -/
def groupByDay (stories : List StoryRecord) : List (Int × List StoryRecord) :=
  stories.foldl (fun g s => groupInsert g (dayKey7 s.taken_at) s) []

/-- The media collection phase of one day group: per story, prepare from
`media_urls` when present (failures skipped, no expected-count check),
else keep the stored paths that still exist (note the source appends one
type per stored path — valid or not — always using the first stored
type). -/
def collectDayMedia (env : Env) (username : String)
    (dayStories : List StoryRecord) : List String × List String :=
  dayStories.foldl (fun acc s =>
    let stored := storyStoredMedia s
    if s.media_urls ≠ [] then
      let prepared := preparedMedia env username s.story_id stored.1 stored.2 s.media_urls
      (acc.1 ++ prepared.map (fun p => p.1), acc.2 ++ prepared.map (fun p => p.2))
    else
      let valid := stored.1.filter (fun p => p ≠ "" && env.pathExists p)
      let types := stored.1.map (fun _ =>
        match stored.2 with
        | [] => "image"
        | t :: _ => t)
      (acc.1 ++ valid, acc.2 ++ types)) ([], [])

/-- One iteration of the daily digest's per-batch loop: like the
single-story loop but a failed post just stops the remaining batches (no
orphan recording). -/
def dailyBatchStep (env : Env) (caption : String) (n : Nat)
    (acc : List String × String × World × Bool) (p : Nat × List String) :
    List String × String × World × Bool :=
  let (tids, last, w, stopped) := acc
  if stopped then acc
  else
    let mediaIds := p.2.filterMap env.uploadResult
    if mediaIds = [] then acc
    else
      let (tid?, w') := doPostTweet env w (batchText caption p.1 n) (some last)
      match tid? with
      | none => (tids, last, w', true)
      | some tid => (tids ++ [tid], tid, w', false)

/-- The per-batch loop of the daily digest. -/
def postBatchesDaily (env : Env) (w : World) (caption : String)
    (last0 : String) (batches : List (List String)) : List String × World :=
  let r := batches.enum.foldl (dailyBatchStep env caption batches.length)
    ([], last0, w, false)
  (r.1, r.2.2.1)

/-- Processing of one calendar-day group by
`StoryArchiver.post_pending_stories_daily`: sort the group, ensure the
anchor, concatenate all prepared media, post in batches of 4, and — when
at least one post was created — mark every story of the group with the
shared tweet-id list.  Returns the created tweet ids, the number of
stories counted as posted, and the new world. -/
def processDayGroup (env : Env) (w : World) (username : String)
    (dayStories0 : List StoryRecord) : List String × Nat × World :=
  let dayStories := sortLe (fun a b => decide (a.taken_at ≤ b.taken_at)) dayStories0
  let (anchor?, w1) := ensureAnchorTweet env w username
  match anchor? with
  | none => ([], 0, w1)
  | some anchorId =>
    let allStoryIds := dayStories.map (fun s => s.story_id)
    let collected := collectDayMedia env username dayStories
    if collected.1 = [] then ([], 0, w1)
    else
      let firstTakenAt := (dayStories.headD (mkEntry { env with now := 0 } "" "" ⟨0, [], [], 0⟩)).taken_at
      let caption := env.captionText username firstTakenAt
      let (last?, st2) := getLastTweetIdS w1.store username
      let w2 := { w1 with store := st2 }
      let last0 := last?.getD anchorId
      let (tweetIds, w3) := postBatchesDaily env w2 caption last0 (chunks4 collected.1)
      if tweetIds = [] then ([], 0, w3)
      else
        let w4 := allStoryIds.foldl
          (fun w sid => (updateStoryTweets env w username sid tweetIds).2) w3
        let (_, w5) := setLastTweetId env w4 username (tweetIds.getLastD "")
        let w6 := { w5 with cleaned := w5.cleaned ++ collected.1.filter env.pathExists }
        let w7 := allStoryIds.foldl
          (fun w sid => (updateStoryLocalPaths env w username sid []).2) w6
        (tweetIds, allStoryIds.length, w7)

/-- `StoryArchiver.post_pending_stories_daily`. -/
def postPendingStoriesDaily (env : Env) (w : World) : Nat × World :=
  let step := fun (acc : Nat × World) (u0 : String) =>
    let username := accountKey u0
    let (stories, st) := getStatisticsStories acc.2.store username
    let w1 := { acc.2 with store := st }
    let toPost := selectEligible env.now stories
    if toPost = [] then (acc.1, w1)
    else
      let groups := sortLe (fun a b => decide (a.1 ≤ b.1)) (groupByDay toPost)
      groups.foldl (fun acc' g =>
        let (_, n, w') := processDayGroup env acc'.2 username g.2
        (acc'.1 + n, w')) (acc.1, w1)
  env.usernames.foldl step (0, w)

/-! ## Loading and legacy migration (`_load_archive` / `_normalize_data`) -/

/-- An account dict as found in a raw ledger file; `none` models an
absent key (or, for `archived_stories`, a non-list value — both normalise
to `[]`). -/
structure RawAccount where
  archived_stories : Option (List StoryRecord)
  last_check : Option Int
  anchor_tweet_id : Option String
  last_tweet_id : Option String
  deriving Repr, DecidableEq

/-- A parsed ledger file: the multi-account schema (a dict with an
`accounts` dict), or the legacy flat single-account schema (a dict with a
top-level `archived_stories` list).  Unknown formats re-initialise the
store and are not modelled. -/
inductive RawDoc where
  | newSchema (schema_version : Option Int) (accounts : List (String × RawAccount))
  | legacy (archived_stories : List StoryRecord) (last_check : Option Int)
      (anchor_tweet_id : Option String) (last_tweet_id : Option String)
  deriving Repr, DecidableEq

/-- `merged = _empty_account(); merged.update(account)` plus the
stories-must-be-a-list repair. -/
def normalizeAccount (ra : RawAccount) : Account :=
  { archived_stories := ra.archived_stories.getD [],
    last_check := ra.last_check,
    anchor_tweet_id := ra.anchor_tweet_id,
    last_tweet_id := ra.last_tweet_id }

/-- Dict assignment: replace a present key in place, else append. -/
def assocSet (l : List (String × Account)) (k : String) (a : Account) :
    List (String × Account) :=
  if l.any (fun p => decide (p.1 = k)) then
    l.map (fun p => if p.1 = k then (k, a) else p)
  else l ++ [(k, a)]

/-- `ArchiveManager._normalize_data`: strip every account key and apply
the account defaults (non-string keys and non-dict accounts are not
representable in the typed model). -/
def normalizeData (accounts : List (String × RawAccount)) : Store :=
  ⟨accounts.foldl (fun acc p => assocSet acc (accountKey p.1) (normalizeAccount p.2)) []⟩

/-- The default account name computed in `ArchiveManager.__init__`:
`(default_instagram_username or 'default').strip().lstrip('@')`. -/
def defaultAccountName (defaultRaw : String) : String :=
  accountKey (if defaultRaw = "" then "default" else defaultRaw)

/-- `ArchiveManager._load_archive` on a successfully parsed file: the new
schema is normalised; a legacy file is migrated to a single account under
the configured default name and then normalised. -/
def loadArchive (defaultRaw : String) (raw : RawDoc) : Store :=
  match raw with
  | .newSchema _ accounts => normalizeData accounts
  | .legacy stories lc anchor last =>
    normalizeData
      [(defaultAccountName defaultRaw,
        { archived_stories := some stories, last_check := lc,
          anchor_tweet_id := anchor, last_tweet_id := last })]

/-- `_save_archive`'s serialisation of a store, as re-parsed by a later
load: `json.dump(self.data)` writes the accounts mapping verbatim. -/
def storeToRaw (st : Store) : RawDoc :=
  .newSchema (some 2)
    (st.accounts.map (fun p =>
      (p.1, { archived_stories := some p.2.archived_stories,
              last_check := p.2.last_check,
              anchor_tweet_id := p.2.anchor_tweet_id,
              last_tweet_id := p.2.last_tweet_id })))

/-! ## Helper lemmas -/

theorem length_dropWhileLe {α : Type} (p : α → Bool) (l : List α) :
    (l.dropWhile p).length ≤ l.length := by
  induction l with
  | nil => simp
  | cons a t ih =>
    rw [List.dropWhile_cons]
    split
    · exact Nat.le_trans ih (Nat.le_succ _)
    · simp

theorem dropWhile_eq_self_of_length {α : Type} (p : α → Bool) (l : List α)
    (h : (l.dropWhile p).length = l.length) : l.dropWhile p = l := by
  cases l with
  | nil => simp
  | cons a t =>
    rw [List.dropWhile_cons] at h ⊢
    split at h
    · exact absurd h (by have := length_dropWhileLe p t; simp; omega)
    · simp_all

theorem lookupAccount_append (l₁ l₂ : List (String × Account)) (k : String) :
    lookupAccount ⟨l₁ ++ l₂⟩ k
      = (lookupAccount ⟨l₁⟩ k).or (lookupAccount ⟨l₂⟩ k) := by
  simp only [lookupAccount, List.find?_append]
  cases List.find? (fun p => decide (p.1 = k)) l₁ <;> simp

theorem lookupAccount_setAccount_eq (st : Store) (k : String) (a' : Account) :
    lookupAccount (setAccount st k a') k = (lookupAccount st k).map (fun _ => a') := by
  rcases st with ⟨l⟩
  induction l with
  | nil => simp [lookupAccount, setAccount]
  | cons p t ih =>
    by_cases h : p.1 = k
    · simp [lookupAccount, setAccount, List.find?_cons, h]
    · simp only [lookupAccount, setAccount, List.map_cons, List.find?_cons,
        if_neg h] at ih ⊢
      rw [decide_eq_false h]
      exact ih

theorem lookupAccount_setAccount_ne (st : Store) (k : String) (a' : Account)
    (k' : String) (h : k' ≠ k) :
    lookupAccount (setAccount st k a') k' = lookupAccount st k' := by
  rcases st with ⟨l⟩
  induction l with
  | nil => simp [lookupAccount, setAccount]
  | cons p t ih =>
    by_cases hp : p.1 = k
    · have hkk' : ¬(k = k') := fun hk => h hk.symm
      have hpk' : ¬(p.1 = k') := hp ▸ hkk'
      simp only [lookupAccount, setAccount, List.map_cons, List.find?_cons,
        if_pos hp] at ih ⊢
      rw [decide_eq_false hkk', decide_eq_false hpk']
      exact ih
    · simp only [lookupAccount, setAccount, List.map_cons, List.find?_cons,
        if_neg hp] at ih ⊢
      cases hd : decide (p.1 = k')
      · exact ih
      · rfl

/-- `_get_account` leaves a present account's key bound to that account,
and binds a missing key to the fresh empty account. -/
theorem lookupAccount_getAccountS (st : Store) (u : String) :
    lookupAccount (getAccountS st u).2 (accountKey u) = some (getAccountS st u).1 := by
  unfold getAccountS
  cases h : lookupAccount st (accountKey u) with
  | some a => simp only [h]
  | none =>
    simp only [h]
    rw [lookupAccount_append, h]
    simp [lookupAccount]

/-- Saving never changes the in-memory store. -/
theorem saveArchive_store (env : Env) (w : World) :
    (saveArchive env w).2.store = w.store := by
  unfold saveArchive
  cases env.saveOutcome w.saveCount <;> rfl

/-- `_save_archive` succeeds exactly on the `ok` outcome, and then the
disk holds the current store. -/
theorem saveArchive_spec (env : Env) (w : World) :
    ((saveArchive env w).1 = true ↔ env.saveOutcome w.saveCount = SaveOutcome.ok)
    ∧ ((saveArchive env w).1 = true →
        (saveArchive env w).2.disk = DiskFile.intact (saveArchive env w).2.store) := by
  unfold saveArchive
  cases h : env.saveOutcome w.saveCount <;> simp

/-! ## C8: eligibility boundary -/

/-- C8: under both posting policies a pending story is selected exactly
when its `taken_at` lies strictly before 00:00:00 of the current calendar
day in UTC+7 (`dayStart7 now` — the start of the day containing `now`,
aligned to midnight UTC+7); in particular `taken_at = dayStart7 now - 1`
(23:59:59 yesterday) is eligible and `taken_at = dayStart7 now` (midnight
today) is not. -/
theorem eligibility_boundary (now : Int) (stories : List StoryRecord)
    (r : StoryRecord) :
    (r ∈ selectEligible now stories ↔
       r ∈ stories ∧ r.tweet_ids = [] ∧ r.taken_at < dayStart7 now)
    ∧ (r.tweet_ids = [] → r ∈ stories → r.taken_at = dayStart7 now - 1 →
        r ∈ selectEligible now stories)
    ∧ (r.taken_at = dayStart7 now → r ∉ selectEligible now stories)
    ∧ dayStart7 now ≤ now ∧ now < dayStart7 now + 86400
    ∧ (dayStart7 now + 7 * 3600) % 86400 = 0 := by
  have hmem : r ∈ selectEligible now stories ↔
      r ∈ stories ∧ r.tweet_ids = [] ∧ r.taken_at < dayStart7 now := by
    simp [selectEligible, storyEligible, List.mem_filter, List.isEmpty_iff,
      and_assoc]
  have hds : dayStart7 now = (now + 7 * 3600) / 86400 * 86400 - 7 * 3600 := rfl
  refine ⟨hmem, ?_, ?_, ?_, ?_, ?_⟩
  · intro h1 h2 h3
    refine hmem.mpr ⟨h2, h1, ?_⟩
    omega
  · intro hT hin
    have h := (hmem.mp hin).2.2
    omega
  · rw [hds]; omega
  · rw [hds]; omega
  · rw [hds]; omega

def rC8yesterday : StoryRecord :=
  { story_id := "y", instagram_username := "alice", archived_at := 0,
    media_count := 1, tweet_ids := [], media_urls := ["u"],
    taken_at := 1759942799, local_media_paths := [], media_types := [],
    local_media_path := none, media_type := "image" }

def rC8today : StoryRecord :=
  { rC8yesterday with story_id := "t", taken_at := 1759942800 }

theorem eligibility_boundary_witness :
    rC8yesterday ∈ selectEligible 1760000000 [rC8yesterday, rC8today]
    ∧ rC8today ∉ selectEligible 1760000000 [rC8yesterday, rC8today] := by
  constructor
  · exact (eligibility_boundary 1760000000 [rC8yesterday, rC8today]
      rC8yesterday).2.1 (by decide) (by decide) (by decide)
  · exact (eligibility_boundary 1760000000 [rC8yesterday, rC8today]
      rC8today).2.2.1 (by decide)

/-! ## Step lemmas for `add_story` -/

theorem addStory_present (env : Env) (w : World) (u sid : String)
    (d : StoryData) (a : Account)
    (hL : lookupAccount w.store (accountKey u) = some a)
    (ha : a.archived_stories.any (fun e => decide (e.story_id = sid)) = true) :
    addStory env w u sid d = (false, w) := by
  simp [addStory, getAccountS, hL, ha]

theorem addStory_new (env : Env) (w : World) (u sid : String)
    (d : StoryData) (a : Account)
    (hL : lookupAccount w.store (accountKey u) = some a)
    (ha : a.archived_stories.any (fun e => decide (e.story_id = sid)) = false) :
    addStory env w u sid d = saveArchive env
      { w with store :=
                 setAccount w.store (accountKey u)
                   ({ a with
                       archived_stories := a.archived_stories ++ [mkEntry env u sid d],
                       last_check := some env.now }) } := by
  simp [addStory, getAccountS, hL, ha]

theorem addStory_new_missing (env : Env) (w : World) (u sid : String)
    (d : StoryData)
    (hL : lookupAccount w.store (accountKey u) = none) :
    addStory env w u sid d = saveArchive env
      { w with store :=
                 setAccount (⟨w.store.accounts ++ [(accountKey u, emptyAccount)]⟩ : Store)
                   (accountKey u)
                   ({ emptyAccount with
                       archived_stories := [mkEntry env u sid d],
                       last_check := some env.now }) } := by
  simp [addStory, getAccountS, hL, emptyAccount]

/-! ## C5: persistence -/

theorem saveArchive_persist (env : Env) (w' : World) :
    ((saveArchive env w').1 = true →
       (saveArchive env w').2.disk = DiskFile.intact (saveArchive env w').2.store)
    ∧ (env.saveOutcome w'.saveCount ≠ SaveOutcome.ok →
       (saveArchive env w').1 = false) := by
  unfold saveArchive
  cases h : env.saveOutcome w'.saveCount <;> simp

def envNoop : Env :=
  { now := 0, saveOutcome := fun _ => .ok, pathExists := fun _ => false,
    downloadOk := fun _ => false, imageSmallEnough := fun _ => true,
    mtime := fun _ => 0, uploadResult := fun _ => none,
    tweetResult := fun _ => none, fetchStories := fun _ => none,
    cacheFiles := none, cacheDir := "cache",
    captionText := fun _ _ => "caption", anchorText := fun _ => "anchor",
    usernames := [] }

def stC5 : Store := ⟨[("alice", emptyAccount)]⟩

def wC5 : World :=
  { store := stC5, disk := .intact stC5, saveCount := 0, counter := 0,
    posts := [], orphans := [], cleaned := [] }

def dC5 : StoryData :=
  { media_count := 1, tweet_ids := [], media_urls := ["u"], taken_at := 0 }

def envC5 : Env := { envNoop with saveOutcome := fun _ => .failCorrupt }

/-- C5 counterexample: the save is an in-place truncating rewrite, so a
persist that fails mid-write is reported as failure but leaves the
previously durable on-disk state destroyed (the file is truncated), not
"uncorrupted" as the claim states. -/
theorem save_failure_corrupts_disk :
    wC5.disk = DiskFile.intact stC5
    ∧ (addStory envC5 wC5 "alice" "s1" dC5).1 = false
    ∧ (addStory envC5 wC5 "alice" "s1" dC5).2.disk ≠ DiskFile.intact stC5 := by
  refine ⟨rfl, ?_, ?_⟩ <;> decide

/-- C5 amended: every mutating ledger operation persists the entire store
before returning success — on success the disk holds exactly the new
store, and a failed persist is reported by returning `false`.  (What the
original claim gets wrong is only the failure path's disk state, shown by
the counterexample: the write is `open(path, 'w')` + `json.dump`, an
in-place truncating rewrite, not write-to-temp-then-rename.) -/
theorem mutating_ops_persist_entire_store (env : Env) (w : World)
    (u sid tid : String) (d : StoryData) (tids : List String) :
    ((addStory env w u sid d).1 = true →
       (addStory env w u sid d).2.disk
         = DiskFile.intact (addStory env w u sid d).2.store)
    ∧ (env.saveOutcome w.saveCount ≠ SaveOutcome.ok →
       (addStory env w u sid d).1 = false)
    ∧ ((updateStoryTweets env w u sid tids).1 = true →
       (updateStoryTweets env w u sid tids).2.disk
         = DiskFile.intact (updateStoryTweets env w u sid tids).2.store)
    ∧ (env.saveOutcome w.saveCount ≠ SaveOutcome.ok →
       (updateStoryTweets env w u sid tids).1 = false)
    ∧ ((setAnchorTweetId env w u tid).1 = true →
       (setAnchorTweetId env w u tid).2.disk
         = DiskFile.intact (setAnchorTweetId env w u tid).2.store)
    ∧ (env.saveOutcome w.saveCount ≠ SaveOutcome.ok →
       (setAnchorTweetId env w u tid).1 = false)
    ∧ ((setLastTweetId env w u tid).1 = true →
       (setLastTweetId env w u tid).2.disk
         = DiskFile.intact (setLastTweetId env w u tid).2.store)
    ∧ (env.saveOutcome w.saveCount ≠ SaveOutcome.ok →
       (setLastTweetId env w u tid).1 = false) := by
  unfold addStory updateStoryTweets setAnchorTweetId setLastTweetId
  refine ⟨?_, ?_, ?_, ?_, ?_, ?_, ?_, ?_⟩
  all_goals
    generalize getAccountS w.store u = p
    obtain ⟨a, st1⟩ := p
    dsimp only
    first
    | exact (saveArchive_persist env _).1
    | exact fun h => (saveArchive_persist env _).2 h
    | (split
       · intro h
         simp at h
       · exact (saveArchive_persist env _).1)
    | (split
       · exact (saveArchive_persist env _).1
       · intro h
         simp at h)
    | (intro h
       split
       · rfl
       · exact (saveArchive_persist env _).2 h)
    | (intro h
       split
       · exact (saveArchive_persist env _).2 h
       · rfl)

theorem mutating_ops_persist_entire_store_witness :
    (addStory envNoop wC5 "alice" "s1" dC5).2.disk
      = DiskFile.intact (addStory envNoop wC5 "alice" "s1" dC5).2.store :=
  (mutating_ops_persist_entire_store envNoop wC5 "alice" "s1" "t" dC5 []).1
    (by decide)

/-! ## C6: idempotent insert -/

theorem mem_map_storyId_iff_any (sid : String) (l : List StoryRecord) :
    sid ∈ l.map (fun e => e.story_id)
      ↔ l.any (fun e => decide (e.story_id = sid)) = true := by
  simp [List.mem_map, List.any_eq_true]

/-- C6: `add_story` is an idempotent insert: a present `story_id` gives
`false` and leaves the whole world unchanged; an absent one (with a
successful persist) gives `true`, appends exactly the new entry, persists
it, and a second insert of the same id returns `false`, so the account
holds exactly one record with that id. -/
theorem insert_if_new_idempotent (env : Env) (w : World) (u sid : String)
    (d dSecond : StoryData) (hu : accountKey u = u) :
    (sid ∈ (getArchivedStoryIds w.store u).1 → addStory env w u sid d = (false, w))
    ∧ (sid ∉ (getArchivedStoryIds w.store u).1 →
        env.saveOutcome w.saveCount = SaveOutcome.ok →
        (addStory env w u sid d).1 = true
        ∧ (addStory env w u sid d).2.disk
            = DiskFile.intact (addStory env w u sid d).2.store
        ∧ ((lookupAccount (addStory env w u sid d).2.store u).getD emptyAccount).archived_stories
            = ((lookupAccount w.store u).getD emptyAccount).archived_stories
                ++ [mkEntry env u sid d]
        ∧ (addStory env (addStory env w u sid d).2 u sid dSecond).1 = false
        ∧ (((lookupAccount (addStory env w u sid d).2.store u).getD
              emptyAccount).archived_stories.countP
                (fun e => decide (e.story_id = sid))) = 1) := by
  have hids : (getArchivedStoryIds w.store u).1
      = (getAccountS w.store u).1.archived_stories.map (fun e => e.story_id) := rfl
  cases hL : lookupAccount w.store u with
  | some a =>
    have hL' : lookupAccount w.store (accountKey u) = some a := by rw [hu]; exact hL
    have hga : getAccountS w.store u = (a, w.store) := by
      unfold getAccountS; simp only [hL']
    constructor
    · intro hm
      rw [hids, hga] at hm
      exact addStory_present env w u sid d a hL'
        ((mem_map_storyId_iff_any sid a.archived_stories).mp hm)
    · intro hm hok
      rw [hids, hga] at hm
      have ha : a.archived_stories.any (fun e => decide (e.story_id = sid)) = false := by
        cases hcase : a.archived_stories.any (fun e => decide (e.story_id = sid))
        · rfl
        · exact absurd ((mem_map_storyId_iff_any sid a.archived_stories).mpr hcase) hm
      have heq := addStory_new env w u sid d a hL' ha
      have hsave1 : (addStory env w u sid d).1 = true := by
        rw [heq]; unfold saveArchive; simp [hok]
      have hstore : (addStory env w u sid d).2.store
          = setAccount w.store (accountKey u)
              ({ a with archived_stories := a.archived_stories ++ [mkEntry env u sid d], last_check := some env.now }) := by
        rw [heq, saveArchive_store]
      have hlookK : lookupAccount (addStory env w u sid d).2.store (accountKey u)
          = some ({ a with archived_stories := a.archived_stories ++ [mkEntry env u sid d], last_check := some env.now }) := by
        rw [hstore, hu, lookupAccount_setAccount_eq, hL]
        rfl
      have hlookU := hlookK
      rw [hu] at hlookU
      have hcount0 : a.archived_stories.countP (fun e => decide (e.story_id = sid)) = 0 := by
        rw [List.countP_eq_zero]
        intro e he
        have := List.any_eq_false.mp ha e he
        simpa using this
      refine ⟨hsave1, ?_, ?_, ?_, ?_⟩
      · rw [heq] at hsave1 ⊢
        exact (saveArchive_persist env _).1 hsave1
      · simp only [hlookU, hL, Option.getD_some]
      · have hany2 : (a.archived_stories ++ [mkEntry env u sid d]).any
            (fun e => decide (e.story_id = sid)) = true := by
          simp [mkEntry]
        rw [addStory_present env (addStory env w u sid d).2 u sid dSecond _ hlookK hany2]
      · simp only [hlookU, Option.getD_some]
        rw [List.countP_append, hcount0]
        simp [mkEntry, List.countP_cons]
  | none =>
    have hL' : lookupAccount w.store (accountKey u) = none := by rw [hu]; exact hL
    have hga : getAccountS w.store u
        = (emptyAccount, ⟨w.store.accounts ++ [(accountKey u, emptyAccount)]⟩) := by
      unfold getAccountS; simp only [hL']
    constructor
    · intro hm
      rw [hids, hga] at hm
      simp [emptyAccount] at hm
    · intro _ hok
      have heq := addStory_new_missing env w u sid d hL'
      have hsave1 : (addStory env w u sid d).1 = true := by
        rw [heq]; unfold saveArchive; simp [hok]
      have hlookApp : lookupAccount (⟨w.store.accounts ++ [(accountKey u, emptyAccount)]⟩ : Store)
          (accountKey u) = some emptyAccount := by
        rw [lookupAccount_append, hL']
        simp [lookupAccount]
      have hstore : (addStory env w u sid d).2.store
          = setAccount (⟨w.store.accounts ++ [(accountKey u, emptyAccount)]⟩ : Store)
              (accountKey u)
              ({ emptyAccount with archived_stories := [mkEntry env u sid d], last_check := some env.now }) := by
        rw [heq, saveArchive_store]
      have hlookK : lookupAccount (addStory env w u sid d).2.store (accountKey u)
          = some ({ emptyAccount with archived_stories := [mkEntry env u sid d], last_check := some env.now }) := by
        rw [hstore, lookupAccount_setAccount_eq, hlookApp]
        rfl
      have hlookU := hlookK
      rw [hu] at hlookU
      refine ⟨hsave1, ?_, ?_, ?_, ?_⟩
      · rw [heq] at hsave1 ⊢
        exact (saveArchive_persist env _).1 hsave1
      · simp only [hlookU, hL, Option.getD_some]
        rfl
      · have hany2 : ([mkEntry env u sid d] : List StoryRecord).any
            (fun e => decide (e.story_id = sid)) = true := by
          simp [mkEntry]
        rw [addStory_present env (addStory env w u sid d).2 u sid dSecond _ hlookK hany2]
      · simp only [hlookU, Option.getD_some]
        simp [mkEntry, List.countP_cons]

def wC6 : World :=
  { store := ⟨[]⟩, disk := .intact ⟨[]⟩, saveCount := 0, counter := 0,
    posts := [], orphans := [], cleaned := [] }

def dC6 : StoryData :=
  { media_count := 2, tweet_ids := [], media_urls := ["a", "b"], taken_at := 5 }

theorem insert_if_new_idempotent_witness :
    (addStory envNoop wC6 "alice" "s1" dC6).1 = true
    ∧ (addStory envNoop (addStory envNoop wC6 "alice" "s1" dC6).2 "alice" "s1" dC6).1 = false
    ∧ (((lookupAccount (addStory envNoop wC6 "alice" "s1" dC6).2.store "alice").getD
          emptyAccount).archived_stories.countP
            (fun e => decide (e.story_id = "s1"))) = 1 := by
  have h := (insert_if_new_idempotent envNoop wC6 "alice" "s1" dC6 dC6 (by decide)).2
    (by decide) (by decide)
  exact ⟨h.1, h.2.2.2.1, h.2.2.2.2⟩

/-! ## C10: read-only queries insert missing accounts -/

/-- C10: every query goes through `_get_account`, so querying a handle
whose key is absent from the store appends a fresh empty account record to
the in-memory store (returning the empty/none results), and the next
successful save persists that store — including the new account — to
disk. -/
theorem queries_insert_missing_account (env : Env) (w : World) (u : String)
    (h : lookupAccount w.store (accountKey u) = none) :
    getArchivedStoryIds w.store u
        = ([], ⟨w.store.accounts ++ [(accountKey u, emptyAccount)]⟩)
    ∧ (getStatistics w.store u).2
        = ⟨w.store.accounts ++ [(accountKey u, emptyAccount)]⟩
    ∧ getAnchorTweetIdS w.store u
        = (none, ⟨w.store.accounts ++ [(accountKey u, emptyAccount)]⟩)
    ∧ getLastTweetIdS w.store u
        = (none, ⟨w.store.accounts ++ [(accountKey u, emptyAccount)]⟩)
    ∧ lookupAccount (⟨w.store.accounts ++ [(accountKey u, emptyAccount)]⟩ : Store)
        (accountKey u) = some emptyAccount
    ∧ (env.saveOutcome w.saveCount = SaveOutcome.ok →
        (saveArchive env
          { w with store := ⟨w.store.accounts ++ [(accountKey u, emptyAccount)]⟩ }).2.disk
          = DiskFile.intact ⟨w.store.accounts ++ [(accountKey u, emptyAccount)]⟩) := by
  have hga : getAccountS w.store u
      = (emptyAccount, ⟨w.store.accounts ++ [(accountKey u, emptyAccount)]⟩) := by
    unfold getAccountS
    simp only [h]
  refine ⟨?_, ?_, ?_, ?_, ?_, ?_⟩
  · unfold getArchivedStoryIds
    rw [hga]
    rfl
  · unfold getStatistics
    rw [hga]
  · unfold getAnchorTweetIdS
    rw [hga]
    rfl
  · unfold getLastTweetIdS
    rw [hga]
    rfl
  · rw [lookupAccount_append, h]
    simp [lookupAccount]
  · intro hok
    unfold saveArchive
    simp [hok]

def wC10 : World :=
  { store := ⟨[("alice", emptyAccount)]⟩, disk := .intact ⟨[]⟩, saveCount := 0,
    counter := 0, posts := [], orphans := [], cleaned := [] }

theorem queries_insert_missing_account_witness :
    getArchivedStoryIds wC10.store "bob"
      = ([], ⟨[("alice", emptyAccount), ("bob", emptyAccount)]⟩) :=
  (queries_insert_missing_account envNoop wC10 "bob" (by decide)).1

/-! ## C9: account-key normalisation -/

theorem head_false_of_dropWhile_eq_self {α : Type} (p : α → Bool) (x : α)
    (t : List α) (h : (x :: t).dropWhile p = x :: t) : p x = false := by
  cases hp : p x
  · rfl
  · rw [List.dropWhile_cons, hp, if_pos rfl] at h
    have h1 := length_dropWhileLe p t
    have h2 : (t.dropWhile p).length = t.length + 1 := by rw [h]; rfl
    omega

theorem stripChars_parts (l : List Char) (h : stripChars l = l) :
    l.dropWhile Char.isWhitespace = l
    ∧ l.reverse.dropWhile Char.isWhitespace = l.reverse := by
  have hlen1 : (l.dropWhile Char.isWhitespace).length ≤ l.length :=
    length_dropWhileLe _ _
  have hlen2 : ((l.dropWhile Char.isWhitespace).reverse.dropWhile
      Char.isWhitespace).length ≤ (l.dropWhile Char.isWhitespace).length := by
    have := length_dropWhileLe Char.isWhitespace
      (l.dropWhile Char.isWhitespace).reverse
    simpa using this
  have hlenEq : (stripChars l).length = l.length := by rw [h]
  have hlen3 : (stripChars l).length
      = ((l.dropWhile Char.isWhitespace).reverse.dropWhile
          Char.isWhitespace).length := by
    unfold stripChars
    simp
  have hA : l.dropWhile Char.isWhitespace = l :=
    dropWhile_eq_self_of_length _ _ (by omega)
  refine ⟨hA, ?_⟩
  have h' : (l.reverse.dropWhile Char.isWhitespace).reverse = l := by
    have := h
    unfold stripChars at this
    rwa [hA] at this
  have := congrArg List.reverse h'
  simpa using this

theorem accountKeyChars_parts (l : List Char) (h : accountKeyChars l = l) :
    stripChars l = l ∧ l.dropWhile (fun c => c = '@') = l := by
  have hlen : ((stripChars l).dropWhile (fun c => decide (c = '@'))).length
      = l.length := by
    unfold accountKeyChars at h
    rw [h]
  have hs2 := length_dropWhileLe (fun c => decide (c = '@')) (stripChars l)
  have e3 := length_dropWhileLe Char.isWhitespace l
  have e2 := length_dropWhileLe Char.isWhitespace
    (l.dropWhile Char.isWhitespace).reverse
  have e1 : (stripChars l).length
      = ((l.dropWhile Char.isWhitespace).reverse.dropWhile
          Char.isWhitespace).length := by
    unfold stripChars
    simp
  have e2' : ((l.dropWhile Char.isWhitespace).reverse.dropWhile
      Char.isWhitespace).length ≤ (l.dropWhile Char.isWhitespace).length := by
    simpa using e2
  have hA : l.dropWhile Char.isWhitespace = l := by
    apply dropWhile_eq_self_of_length
    omega
  have hB : l.reverse.dropWhile Char.isWhitespace = l.reverse := by
    apply dropWhile_eq_self_of_length
    have e4 : (stripChars l).length
        = (l.reverse.dropWhile Char.isWhitespace).length := by
      unfold stripChars
      rw [hA]
      simp
    rw [List.length_reverse]
    omega
  have hstrip : stripChars l = l := by
    unfold stripChars
    rw [hA, hB]
    simp
  refine ⟨hstrip, ?_⟩
  unfold accountKeyChars at h
  rwa [hstrip] at h

theorem accountKeyChars_at_cons (l : List Char) (h : accountKeyChars l = l) :
    accountKeyChars ('@' :: l) = l := by
  obtain ⟨hstrip, hdrop⟩ := accountKeyChars_parts l h
  obtain ⟨hws, hwsRev⟩ := stripChars_parts l hstrip
  have hAt : Char.isWhitespace '@' = false := by decide
  have hstep1 : ('@' :: l).dropWhile Char.isWhitespace = '@' :: l := by
    rw [List.dropWhile_cons, hAt]
    simp
  have hstep2 : ('@' :: l).reverse.dropWhile Char.isWhitespace
      = ('@' :: l).reverse := by
    rw [List.reverse_cons]
    cases hl : l.reverse with
    | nil =>
      simp [List.dropWhile_cons, hAt]
    | cons y ys =>
      have hy : Char.isWhitespace y = false := by
        apply head_false_of_dropWhile_eq_self Char.isWhitespace y ys
        rw [← hl]
        exact hwsRev
      simp [List.dropWhile_cons, hy]
  have hstripAt : stripChars ('@' :: l) = '@' :: l := by
    unfold stripChars
    rw [hstep1, hstep2]
    simp
  unfold accountKeyChars
  rw [hstripAt, List.dropWhile_cons]
  simp [hdrop]

/-- The data of `"@" ++ u` is `'@'` consed onto the data of `u`. -/
theorem at_append_data (u : String) : ("@" ++ u).toList = '@' :: u.toList := rfl

theorem accountKey_at_append (u : String) (hu : accountKey u = u) :
    accountKey ("@" ++ u) = u := by
  have hchars : accountKeyChars u.toList = u.toList := by
    have : (accountKeyChars u.toList).asString.toList = u.toList :=
      congrArg String.toList hu
    simpa using this
  unfold accountKey
  rw [at_append_data, accountKeyChars_at_cons u.toList hchars]
  cases u
  rfl

def rC9 : StoryRecord :=
  { story_id := "s1", instagram_username := "alice", archived_at := 0,
    media_count := 1, tweet_ids := [], media_urls := ["u"], taken_at := 0,
    local_media_paths := [], media_types := [], local_media_path := none,
    media_type := "image" }

def stC9 : Store :=
  ⟨[("alice", { emptyAccount with archived_stories := [rC9] })]⟩

/-- C9 counterexample: `_account_key` does not lowercase the handle, so
`"Alice"` and `"alice"` produce different keys and address different
Account Ledgers (the query under `"Alice"` sees no archived stories). -/
theorem account_key_not_lowercased :
    accountKey "Alice" ≠ accountKey "alice"
    ∧ (getArchivedStoryIds stC9 "Alice").1 ≠ (getArchivedStoryIds stC9 "alice").1 := by
  exact ⟨by decide, by decide⟩

/-- C9 amended: every ledger operation keys the account by the handle
with surrounding whitespace stripped and all leading `'@'` removed; the
letter case is preserved.  Hence two handles that differ only by a
leading `'@'` address the same Account Ledger (shown here for every
normalised handle), while handles differing in case address distinct
ledgers (see the counterexample). -/
theorem account_key_strips_at (st : Store) (u : String)
    (hu : accountKey u = u) :
    accountKey ("@" ++ u) = u
    ∧ getArchivedStoryIds st ("@" ++ u) = getArchivedStoryIds st u
    ∧ getStatistics st ("@" ++ u) = getStatistics st u
    ∧ getAnchorTweetIdS st ("@" ++ u) = getAnchorTweetIdS st u
    ∧ getLastTweetIdS st ("@" ++ u) = getLastTweetIdS st u := by
  have hk : accountKey ("@" ++ u) = accountKey u := by
    rw [accountKey_at_append u hu, hu]
  refine ⟨accountKey_at_append u hu, ?_, ?_, ?_, ?_⟩
  · unfold getArchivedStoryIds getAccountS
    rw [hk]
  · unfold getStatistics getAccountS
    rw [hk]
  · unfold getAnchorTweetIdS getAccountS
    rw [hk]
  · unfold getLastTweetIdS getAccountS
    rw [hk]

theorem account_key_strips_at_witness :
    accountKey ("@" ++ "alice") = "alice"
    ∧ getArchivedStoryIds stC9 ("@" ++ "alice") = getArchivedStoryIds stC9 "alice" :=
  ⟨(account_key_strips_at stC9 "alice" (by decide)).1,
   (account_key_strips_at stC9 "alice" (by decide)).2.1⟩

/-! ## C7: legacy migration round-trip -/

/-- C7 counterexample: with the configured default username `"@ @ a"` the
strip-normalisation is applied once more on every load, so re-saving and
re-loading the migrated document changes it again (the account key moves
`" a"` → `"a"`): load-after-save is not a fixed point for every
configured default. -/
theorem legacy_migration_counterexample :
    loadArchive "@ @ a"
        (storeToRaw (loadArchive "@ @ a" (.legacy [] none none none)))
      ≠ loadArchive "@ @ a" (.legacy [] none none none) := by
  decide

/-- C7 amended: provided the configured default account name is stable
under key normalisation (true of any real handle, e.g. one without inner
whitespace), loading a legacy single-account ledger yields a store with
exactly one account — keyed by the normalised configured default — whose
`archived_stories` are the legacy stories verbatim, and re-loading the
saved form of that store yields it back unchanged. -/
theorem legacy_migration_round_trip (defaultRaw : String)
    (stories : List StoryRecord) (lc : Option Int)
    (anchor last : Option String)
    (hd : accountKey (defaultAccountName defaultRaw) = defaultAccountName defaultRaw) :
    loadArchive defaultRaw (.legacy stories lc anchor last)
      = ⟨[(defaultAccountName defaultRaw,
           { archived_stories := stories, last_check := lc,
             anchor_tweet_id := anchor, last_tweet_id := last })]⟩
    ∧ loadArchive defaultRaw
        (storeToRaw (loadArchive defaultRaw (.legacy stories lc anchor last)))
      = loadArchive defaultRaw (.legacy stories lc anchor last) := by
  have h1 : loadArchive defaultRaw (.legacy stories lc anchor last)
      = ⟨[(defaultAccountName defaultRaw,
           { archived_stories := stories, last_check := lc,
             anchor_tweet_id := anchor, last_tweet_id := last })]⟩ := by
    unfold loadArchive normalizeData
    simp [assocSet, hd, normalizeAccount]
  refine ⟨h1, ?_⟩
  rw [h1]
  unfold storeToRaw loadArchive normalizeData
  simp [assocSet, hd, normalizeAccount]

def rC7 : StoryRecord :=
  { story_id := "old1", instagram_username := "alice", archived_at := 3,
    media_count := 2, tweet_ids := ["t9"], media_urls := ["u1", "u2"],
    taken_at := 100, local_media_paths := [], media_types := [],
    local_media_path := none, media_type := "image" }

def legacyStoriesC7 : List StoryRecord := [rC7]

theorem legacy_migration_round_trip_witness :
    loadArchive "alice" (.legacy legacyStoriesC7 (some 7) (some "a0") none)
      = ⟨[("alice",
           { archived_stories := legacyStoriesC7, last_check := some 7,
             anchor_tweet_id := some "a0", last_tweet_id := none })]⟩
    ∧ loadArchive "alice"
        (storeToRaw (loadArchive "alice" (.legacy legacyStoriesC7 (some 7) (some "a0") none)))
      = loadArchive "alice" (.legacy legacyStoriesC7 (some 7) (some "a0") none) :=
  legacy_migration_round_trip "alice" legacyStoriesC7 (some 7) (some "a0") none
    (by decide)

/-! ## C1: at-most-once posting -/

theorem getStatisticsStories_eq (st : Store) (u : String) :
    getStatisticsStories st u
      = ((getAccountS st u).1.archived_stories, (getAccountS st u).2) := rfl

/-- C1: a Story Record whose `tweet_ids` is non-empty is terminal: any
`post_story` call for its `story_id` returns `true` immediately, creating
no posts and leaving the world (store, disk, post trace) unchanged; and
such a record is never selected by the pending filter shared by both
posting policies. -/
theorem at_most_once_posting (env : Env) (w : World) (u sid : String)
    (r : StoryRecord) (hu : accountKey u = u)
    (hr : lookupStory w.store u sid = some r) (ht : r.tweet_ids ≠ []) :
    postStory env w u sid = (true, w)
    ∧ ∀ (now : Int) (stories : List StoryRecord),
        r ∉ selectEligible now stories := by
  unfold lookupStory at hr
  rw [Option.bind_eq_some] at hr
  obtain ⟨a, hL, hfind⟩ := hr
  have hga : getAccountS w.store u = (a, w.store) := by
    unfold getAccountS
    rw [hu]
    simp only [hL]
  have hstats : getStatisticsStories w.store u = (a.archived_stories, w.store) := by
    rw [getStatisticsStories_eq, hga]
  constructor
  · unfold postStory
    rw [hu]
    simp only [hstats, hfind, ne_eq, ht, not_false_eq_true, if_true]
  · intro now stories hmem
    have hel := (List.mem_filter.mp hmem).2
    unfold storyEligible at hel
    rw [Bool.and_eq_true, List.isEmpty_iff] at hel
    exact ht hel.1

def rC1 : StoryRecord :=
  { story_id := "p1", instagram_username := "alice", archived_at := 0,
    media_count := 1, tweet_ids := ["t5"], media_urls := ["u"], taken_at := 0,
    local_media_paths := [], media_types := [], local_media_path := none,
    media_type := "image" }

def stC1 : Store :=
  ⟨[("alice", { emptyAccount with archived_stories := [rC1] })]⟩

def wC1 : World :=
  { store := stC1, disk := .intact stC1, saveCount := 0, counter := 0,
    posts := [], orphans := [], cleaned := [] }

theorem at_most_once_posting_witness :
    postStory envNoop wC1 "alice" "p1" = (true, wC1)
    ∧ rC1 ∉ selectEligible 1760000000 [rC1] := by
  have h := at_most_once_posting envNoop wC1 "alice" "p1" rC1
    (by decide) (by decide) (by decide)
  exact ⟨h.1, h.2 1760000000 [rC1]⟩

/-! ## C3: partial-media abort -/

/-- C3: for a pending story whose authoritative `media_urls` list has more
than one entry, if the preparation loop yields fewer media items than
`len(media_urls)`, `post_story` returns `false` without creating any post
and without touching the world (ledger, disk, post trace all unchanged);
since its `tweet_ids` is still empty the story remains selectable by the
pending filter on a later run. -/
theorem partial_media_abort (env : Env) (w : World) (u sid : String)
    (r : StoryRecord) (hu : accountKey u = u)
    (hr : lookupStory w.store u sid = some r) (ht : r.tweet_ids = [])
    (hlen : 1 < r.media_urls.length)
    (hprep : (storyPrepared env u r).length < r.media_urls.length) :
    postStory env w u sid = (false, w)
    ∧ ∀ (now : Int) (stories : List StoryRecord), r ∈ stories →
        r.taken_at < dayStart7 now → r ∈ selectEligible now stories := by
  unfold lookupStory at hr
  rw [Option.bind_eq_some] at hr
  obtain ⟨a, hL, hfind⟩ := hr
  have hga : getAccountS w.store u = (a, w.store) := by
    unfold getAccountS
    rw [hu]
    simp only [hL]
  have hstats : getStatisticsStories w.store u = (a.archived_stories, w.store) := by
    rw [getStatisticsStories_eq, hga]
  have hturls : r.media_urls ≠ [] := by
    intro hnil
    rw [hnil] at hlen
    simp at hlen
  constructor
  · unfold postStory
    rw [hu]
    simp only [hstats, hfind, ne_eq, ht, not_true_eq_false, if_false,
      ite_not, hturls, if_true]
    cases hp : storyPrepared env u r with
    | nil =>
      simp [hp]
    | cons x xs =>
      have hple : (x :: xs).length ≠ r.media_urls.length := by
        rw [← hp]
        exact Nat.ne_of_lt hprep
      simp [hp, hlen]
      intro h
      exact absurd h (by simpa using hple)
  · intro now stories hmem hlt
    refine List.mem_filter.mpr ⟨hmem, ?_⟩
    unfold storyEligible
    rw [Bool.and_eq_true, List.isEmpty_iff]
    exact ⟨ht, by simpa using hlt⟩

def sC3 : StoryRecord :=
  { story_id := "s3", instagram_username := "alice", archived_at := 0,
    media_count := 3, tweet_ids := [], media_urls := ["v1", "v2", "v3"],
    taken_at := 0, local_media_paths := [], media_types := [],
    local_media_path := none, media_type := "image" }

def accC3 : Account :=
  { archived_stories := [sC3], last_check := none,
    anchor_tweet_id := some "a0", last_tweet_id := some "a0" }

def stC3 : Store := ⟨[("alice", accC3)]⟩

def wC3 : World :=
  { store := stC3, disk := .intact stC3, saveCount := 0, counter := 0,
    posts := [], orphans := [], cleaned := [] }

def envC3 : Env :=
  { envNoop with downloadOk := fun url => url ≠ "v2",
                 tweetResult := fun n => some ("t" ++ toString (n + 1)),
                 uploadResult := fun p => some ("m:" ++ p) }

theorem partial_media_abort_witness :
    postStory envC3 wC3 "alice" "s3" = (false, wC3)
    ∧ sC3 ∈ selectEligible 1760000000 [sC3] := by
  have h := partial_media_abort envC3 wC3 "alice" "s3" sC3
    (by decide) (by decide) rfl (by decide) (by decide)
  exact ⟨h.1, h.2 1760000000 [sC3] (by simp) (by decide)⟩

/-! ## C4: daily-digest group atomicity -/

theorem doPostTweet_store (env : Env) (w : World) (t : String)
    (r : Option String) : (doPostTweet env w t r).2.store = w.store := by
  unfold doPostTweet
  cases env.tweetResult w.counter <;> rfl

theorem dailyBatchStep_store (env : Env) (caption : String) (n : Nat)
    (acc : List String × String × World × Bool) (p : Nat × List String) :
    ((dailyBatchStep env caption n acc p).2.2.1).store = (acc.2.2.1).store := by
  obtain ⟨tids, last, w, stopped⟩ := acc
  unfold dailyBatchStep
  cases stopped
  · dsimp only
    rw [if_neg (show ¬(false = true) by simp)]
    by_cases hm : List.filterMap env.uploadResult p.2 = []
    · rw [if_pos hm]
    · rw [if_neg hm]
      generalize hq : doPostTweet env w (batchText caption p.1 n) (some last) = q
      obtain ⟨tid?, w'⟩ := q
      have hst : w'.store = w.store := by
        have hq2 : w' = (doPostTweet env w (batchText caption p.1 n) (some last)).2 := by
          rw [hq]
        rw [hq2, doPostTweet_store]
      cases tid? <;> simpa using hst
  · dsimp only
    rw [if_pos rfl]

theorem foldl_dailyBatchStep_store (env : Env) (caption : String) (n : Nat)
    (l : List (Nat × List String)) :
    ∀ (acc : List String × String × World × Bool),
      ((l.foldl (dailyBatchStep env caption n) acc).2.2.1).store
        = (acc.2.2.1).store := by
  induction l with
  | nil => intro acc; rfl
  | cons x xs ih =>
    intro acc
    rw [List.foldl_cons, ih, dailyBatchStep_store]

theorem postBatchesDaily_store (env : Env) (w : World) (caption last0 : String)
    (batches : List (List String)) :
    (postBatchesDaily env w caption last0 batches).2.store = w.store := by
  unfold postBatchesDaily
  exact foldl_dailyBatchStep_store env caption _ _ _

theorem getAnchorTweetIdS_snd (st : Store) (u : String) :
    (getAnchorTweetIdS st u).2 = (getAccountS st u).2 := rfl

theorem getLastTweetIdS_snd (st : Store) (u : String) :
    (getLastTweetIdS st u).2 = (getAccountS st u).2 := rfl

theorem lookupStory_getAccountS (st : Store) (u k sid : String) :
    lookupStory (getAccountS st u).2 k sid = lookupStory st k sid := by
  unfold getAccountS
  cases h : lookupAccount st (accountKey u) with
  | some a => simp only [h]
  | none =>
    simp only [h]
    unfold lookupStory
    rw [lookupAccount_append]
    cases hk : lookupAccount st k with
    | some a => rfl
    | none =>
      simp only [Option.none_or]
      by_cases hkk : accountKey u = k
      · subst hkk
        simp [lookupAccount, emptyAccount]
      · have hnone : lookupAccount (⟨[(accountKey u, emptyAccount)]⟩ : Store) k = none := by
          simp [lookupAccount]
          intro hcontra
          exact absurd hcontra hkk
        rw [hnone]

theorem lookupStory_setAccount (st : Store) (k0 : String) (a a' : Account)
    (k sid : String) (hL : lookupAccount st k0 = some a)
    (hs : a'.archived_stories = a.archived_stories) :
    lookupStory (setAccount st k0 a') k sid = lookupStory st k sid := by
  unfold lookupStory
  by_cases hk : k = k0
  · subst hk
    rw [lookupAccount_setAccount_eq, hL]
    simp [hs]
  · rw [lookupAccount_setAccount_ne st k0 a' k hk]

theorem lookupStory_setAnchorTweetId (env : Env) (w : World) (u tid k sid : String) :
    lookupStory ((setAnchorTweetId env w u tid).2).store k sid
      = lookupStory w.store k sid := by
  have hga := lookupAccount_getAccountS w.store u
  unfold setAnchorTweetId
  generalize hp : getAccountS w.store u = p at hga
  obtain ⟨a, st1⟩ := p
  dsimp only at hga ⊢
  rw [saveArchive_store]
  rw [lookupStory_setAccount st1 (accountKey u) a
    ({ a with anchor_tweet_id := some tid }) k sid hga rfl]
  have h2 : st1 = (getAccountS w.store u).2 := by rw [hp]
  rw [h2, lookupStory_getAccountS]

theorem lookupStory_setLastTweetId (env : Env) (w : World) (u tid k sid : String) :
    lookupStory ((setLastTweetId env w u tid).2).store k sid
      = lookupStory w.store k sid := by
  have hga := lookupAccount_getAccountS w.store u
  unfold setLastTweetId
  generalize hp : getAccountS w.store u = p at hga
  obtain ⟨a, st1⟩ := p
  dsimp only at hga ⊢
  rw [saveArchive_store]
  rw [lookupStory_setAccount st1 (accountKey u) a
    ({ a with last_tweet_id := some tid }) k sid hga rfl]
  have h2 : st1 = (getAccountS w.store u).2 := by rw [hp]
  rw [h2, lookupStory_getAccountS]

theorem lookupStory_ensureAnchorTweet (env : Env) (w : World) (u k sid : String) :
    lookupStory ((ensureAnchorTweet env w u).2).store k sid
      = lookupStory w.store k sid := by
  unfold ensureAnchorTweet
  dsimp only
  generalize hp : getAnchorTweetIdS w.store (accountKey u) = p
  obtain ⟨anchor?, st⟩ := p
  have hst : st = (getAccountS w.store (accountKey u)).2 := by
    rw [← getAnchorTweetIdS_snd, hp]
  have hw1 : lookupStory st k sid = lookupStory w.store k sid := by
    rw [hst, lookupStory_getAccountS]
  cases anchor? with
  | some a => exact hw1
  | none =>
    dsimp only
    generalize hq : doPostTweet env { w with store := st }
      (env.anchorText (accountKey u)) none = q
    obtain ⟨tid?, w2⟩ := q
    have hw2 : w2.store = st := by
      have : w2 = (doPostTweet env { w with store := st }
          (env.anchorText (accountKey u)) none).2 := by rw [hq]
      rw [this, doPostTweet_store]
    cases tid? with
    | none =>
      dsimp only
      rw [hw2]
      exact hw1
    | some tid =>
      dsimp only
      rw [lookupStory_setLastTweetId, lookupStory_setAnchorTweetId, hw2]
      exact hw1

def sC4 : StoryRecord :=
  { story_id := "s1", instagram_username := "alice", archived_at := 0,
    media_count := 5, tweet_ids := [],
    media_urls := ["u1", "u2", "u3", "u4", "u5"], taken_at := 0,
    local_media_paths := [], media_types := [], local_media_path := none,
    media_type := "image" }

def accC4 : Account :=
  { archived_stories := [sC4], last_check := none,
    anchor_tweet_id := some "a0", last_tweet_id := some "a0" }

def stC4 : Store := ⟨[("alice", accC4)]⟩

def wC4 : World :=
  { store := stC4, disk := .intact stC4, saveCount := 0, counter := 0,
    posts := [], orphans := [], cleaned := [] }

def envC4 : Env :=
  { envNoop with
      now := 1760000000,
      downloadOk := fun _ => true,
      uploadResult := fun p => some ("m:" ++ p),
      tweetResult := fun n => if n = 0 then some "t1" else none,
      cacheFiles := some [],
      usernames := ["alice"] }

/-- C4 counterexample: one eligible day-group (a story with five media
urls, all preparable, giving two batches of 4+1); the first batch's post
succeeds and the second fails (two attempts, one created post), yet the
ledger is mutated — the story is marked posted with the partial id list
`["t1"]` — contradicting "the ledger is mutated only if all of the
group's posts succeeded". -/
theorem daily_digest_partial_success_mutates :
    envC4.tweetResult 1 = none
    ∧ (postPendingStoriesDaily envC4 wC4).2.counter = 2
    ∧ (postPendingStoriesDaily envC4 wC4).2.posts.length = 1
    ∧ (lookupStory (postPendingStoriesDaily envC4 wC4).2.store "alice" "s1").map
        (fun s => s.tweet_ids) = some ["t1"]
    ∧ lookupStory wC4.store "alice" "s1" = some sC4
    ∧ sC4.tweet_ids = [] := by
  refine ⟨rfl, ?_, ?_, ?_, ?_, rfl⟩ <;> decide

/-- C4 amended: in the daily-digest policy a calendar-day group is
abandoned with every story record unchanged only when the group produces
no post at all (zero successful batch posts, no prepared media, or no
anchor); as soon as at least one of the group's posts succeeds, every
story in the group is marked posted with the shared (possibly partial)
post-id list — the counterexample shows a partial success still mutating
the ledger, and incomplete prepared media does not abort the group.
Proved here: the abandonment direction — if the group yields no tweet
ids, every story record is unchanged. -/
theorem daily_group_abandoned_only_without_success (env : Env) (w : World)
    (username : String) (g : List StoryRecord) (k sid : String)
    (h : (processDayGroup env w username g).1 = []) :
    lookupStory (processDayGroup env w username g).2.2.store k sid
      = lookupStory w.store k sid := by
  unfold processDayGroup at h ⊢
  dsimp only at h ⊢
  generalize hEA : ensureAnchorTweet env w username = pEA at h ⊢
  obtain ⟨anchor?, w1⟩ := pEA
  have hW1 : lookupStory w1.store k sid = lookupStory w.store k sid := by
    have hw1 : w1 = (ensureAnchorTweet env w username).2 := by rw [hEA]
    rw [hw1, lookupStory_ensureAnchorTweet]
  cases anchor? with
  | none => exact hW1
  | some anchorId =>
    dsimp only at h ⊢
    by_cases hc : (collectDayMedia env username
        (sortLe (fun a b => decide (a.taken_at ≤ b.taken_at)) g)).1 = []
    · rw [if_pos hc] at h ⊢
      exact hW1
    · rw [if_neg hc] at h ⊢
      generalize hLT : getLastTweetIdS w1.store username = pLT at h ⊢
      obtain ⟨last?, st2⟩ := pLT
      have hSt2 : lookupStory st2 k sid = lookupStory w1.store k sid := by
        have hst2 : st2 = (getLastTweetIdS w1.store username).2 := by rw [hLT]
        rw [hst2, getLastTweetIdS_snd, lookupStory_getAccountS]
      dsimp only at h ⊢
      generalize hPB : postBatchesDaily env
          { store := st2, disk := w1.disk, saveCount := w1.saveCount,
            counter := w1.counter, posts := w1.posts, orphans := w1.orphans,
            cleaned := w1.cleaned }
          (env.captionText username
            ((sortLe (fun a b => decide (a.taken_at ≤ b.taken_at)) g).headD
              (mkEntry { env with now := 0 } "" "" ⟨0, [], [], 0⟩)).taken_at)
          (last?.getD anchorId)
          (chunks4 (collectDayMedia env username
            (sortLe (fun a b => decide (a.taken_at ≤ b.taken_at)) g)).1)
          = pPB at h ⊢
      obtain ⟨tweetIds, w3⟩ := pPB
      have hW3 : lookupStory w3.store k sid = lookupStory st2 k sid := by
        have h1 := congrArg (fun p => p.2.store) hPB
        dsimp only at h1
        rw [postBatchesDaily_store] at h1
        rw [← h1]
      cases tweetIds with
      | nil =>
        rw [if_pos rfl]
        dsimp only
        rw [hW3, hSt2]
        exact hW1
      | cons t ts =>
        rw [if_neg (by simp)] at h
        dsimp only at h
        exact absurd h (by simp)

def envC4fail : Env :=
  { envC4 with tweetResult := fun _ => none }

theorem daily_group_abandoned_witness :
    lookupStory (processDayGroup envC4fail wC4 "alice" [sC4]).2.2.store
        "alice" "s1"
      = lookupStory wC4.store "alice" "s1" :=
  daily_group_abandoned_only_without_success envC4fail wC4 "alice" [sC4]
    "alice" "s1" (by decide)

/-! ## C2: end-to-end scenario -/

def w0C2 : World :=
  { store := ⟨[]⟩, disk := .intact ⟨[]⟩, saveCount := 0, counter := 0,
    posts := [], orphans := [], cleaned := [] }

def nowC2 : Int := 1760000000

def envC2 : Env :=
  { now := nowC2,
    saveOutcome := fun _ => .ok,
    pathExists := fun _ => false,
    downloadOk := fun _ => true,
    imageSmallEnough := fun _ => true,
    mtime := fun _ => 0,
    uploadResult := fun p => some ("m:" ++ p),
    tweetResult := fun n => some ("t" ++ toString (n + 1)),
    fetchStories := fun u =>
      if u = "alice" then
        some [⟨"s1", nowC2 - 2 * 86400, [⟨"u1", "image"⟩]⟩,
              ⟨"s2", nowC2, [⟨"u2", "image"⟩]⟩]
      else none,
    cacheFiles := some [],
    cacheDir := "cache",
    captionText := fun u _ => "cap " ++ u,
    anchorText := fun u => "anchor " ++ u,
    usernames := ["alice"] }

/-- C2: from an empty ledger, with the fetch port returning stories `s1`
(taken two days ago) and `s2` (taken now), the archive pass creates
exactly the two Story Records (both pending); the immediate-policy post
pass posts only `s1` — creating the anchor post `t1` first (none
existed) and then exactly one reply `t2` to it — marking `s1` posted with
`["t2"]` and leaving `s2` pending with empty `tweet_ids`. -/
theorem end_to_end_scenario :
    (archiveAllStoriesForUser envC2 w0C2 "alice").1 = 2
    ∧ ((archiveAllStoriesForUser envC2 w0C2 "alice").2.store.accounts.map
         (fun p => (p.1, p.2.archived_stories.map
           (fun s => (s.story_id, s.tweet_ids)))))
        = [("alice", [("s1", []), ("s2", [])])]
    ∧ (postPendingStories envC2
        (archiveAllStoriesForUser envC2 w0C2 "alice").2).1 = 1
    ∧ ((postPendingStories envC2
         (archiveAllStoriesForUser envC2 w0C2 "alice").2).2.posts.map
         (fun p => (p.id, p.replyTo)))
        = [("t1", none), ("t2", some "t1")]
    ∧ ((postPendingStories envC2
         (archiveAllStoriesForUser envC2 w0C2 "alice").2).2.store.accounts.map
         (fun p => (p.1, p.2.anchor_tweet_id, p.2.last_tweet_id,
           p.2.archived_stories.map (fun s => (s.story_id, s.tweet_ids)))))
        = [("alice", some "t1", some "t2", [("s1", ["t2"]), ("s2", [])])] := by
  exact ⟨by decide, by decide, by decide, by decide, by rfl⟩

end ISA
